import Mathlib

/-
A shallow embedding of the `udp_connector` reliability layer (src/lib.rs,
src/packet.rs, src/param.rs).

Modelling conventions:
* `NonZeroU64` message ids are modelled as `ℕ` (the wire value; `0` is the
  reserved / impossible value, and `NonZeroU64::new x` is `if x = 0 then
  none else some x`).  Overflow past `2^64` never matters for the
  properties below (the id counter only moves by `+1`).
* `Instant` timestamps and the floating-point second counts of
  `ConnectorParam` are modelled as `ℚ`; `t.elapsed()` at the current
  instant `now` is `now - t`.  All `Instant::now()` calls inside one
  Rust method are the single parameter `now`.
* The socket is externalized: every operation returns, next to the new
  connector state, the list of packets it wrote to the socket, in the
  order the Rust code emits them.  `bincode` (de)serialization is the
  external byte bijection of the spec, so `handle_incoming_data` takes
  the decoded `Packet` directly; the branches modelled here perform no
  other fallible action.
* `HashMap<NonZeroU64, CachedPacket>` is modelled as an association list
  `List (ℕ × CachedPacket α)`; `remove` is `filter`, `insert` drops any
  old binding and appends, `get_mut` is `find?`, and `values_mut`
  iteration is traversal in list order (the hash map's iteration order is
  arbitrary; the claims below never depend on the order inside that
  phase).
-/

namespace UdpConnector

/-- src/packet.rs: the wire packet enumeration. -/
inductive Packet (α : Type) where
  | Ping (last_send_message_id : Option ℕ)
  | Pong (last_send_message_id : Option ℕ)
  | PacketNotFound (id : ℕ)
  | RequestPacket (id : ℕ)
  | ConfirmPacket (id : ℕ)
  | Data (message_id : Option ℕ) (data : α)
deriving DecidableEq

/-- src/lib.rs `MissingId`: an id we are requesting from the peer. -/
structure MissingId where
  id : ℕ
  last_request : ℚ
deriving DecidableEq

/-- src/lib.rs `CachedPacket`: a sent-but-unconfirmed packet. -/
structure CachedPacket (α : Type) where
  packet : Packet α
  last_emit : ℚ
deriving DecidableEq

/-- src/lib.rs `ConnectorSend`: the sending half. -/
structure ConnectorSend (α : Type) where
  unconfirmed_message_cache : List (ℕ × CachedPacket α)
  next_message_id : Option ℕ
  last_ping : ℚ
deriving DecidableEq

/-- src/lib.rs `ConnectorReceive`: the receiving half. -/
structure ConnectorReceive where
  last_message_id : Option ℕ
  missing_message_id_list : List MissingId
  last_ping : ℚ
deriving DecidableEq

/-- src/lib.rs `Connector`.  The peer address is immutable and only ever
compared with itself by the code paths modelled here, so it is omitted;
every emission below is to that address. -/
structure Connector (α : Type) where
  send : ConnectorSend α
  receive : ConnectorReceive
deriving DecidableEq

/-- src/lib.rs `NetworkState`. -/
inductive NetworkState where
  | Connected
  | Disconnected
  | Connecting
deriving DecidableEq

/-- src/param.rs `ConnectorParam`: the five duration tunables (the two
application message types are the type parameter `α`). -/
structure Params where
  PING_INTERVAL_S : ℚ
  REQUEST_MISSING_PACKET_INTERVAL_S : ℚ
  EMIT_UNCONFIRMED_PACKET_INTERVAL_S : ℚ
  RECEIVE_PING_TIMEOUT_S : ℚ
  SEND_PING_TIMEOUT_S : ℚ

/-- `Default for ConnectorSend` (timestamps are `Instant::now()`). -/
def ConnectorSend.new (now : ℚ) : ConnectorSend α :=
  { unconfirmed_message_cache := []
    next_message_id := none
    last_ping := now }

/-- `Default for ConnectorReceive`. -/
def ConnectorReceive.new (now : ℚ) : ConnectorReceive :=
  { last_message_id := none
    missing_message_id_list := []
    last_ping := now }

/-- `Connector::bound_to`. -/
def Connector.bound_to (now : ℚ) : Connector α :=
  { send := ConnectorSend.new now, receive := ConnectorReceive.new now }

/-- `Connector::state` — transcribed exactly as the source has it
(including the branch labels as written, lines 188–198 of lib.rs). -/
def Connector.state (c : Connector α) (p : Params) (now : ℚ) : NetworkState :=
  if now - c.receive.last_ping > p.RECEIVE_PING_TIMEOUT_S then
    if now - c.send.last_ping > p.SEND_PING_TIMEOUT_S then
      NetworkState.Connecting
    else
      NetworkState.Disconnected
  else
    NetworkState.Connected

/-- The `while start <= id` loop of `Connector::request_message_up_to`:
push `start` onto the missing list when it is not already there, then
advance `start`, until `start > id`. -/
def requestLoop (missing : List MissingId) (start id : ℕ) (now : ℚ) :
    List MissingId :=
  if h : start ≤ id then
    requestLoop
      (if (missing.find? (fun e => e.id == start)).isSome then missing
       else missing ++ [⟨start, now⟩])
      (start + 1) id now
  else
    missing
termination_by id + 1 - start
decreasing_by omega

/-- `Connector::request_message_up_to` (lib.rs lines 357–378).  The final
assignment is `NonZeroU64::new(id)`, which is `none` exactly when
`id = 0`. -/
def Connector.request_message_up_to (c : Connector α) (id : ℕ) (now : ℚ) :
    Connector α :=
  { c with receive :=
    { c.receive with
      missing_message_id_list :=
        requestLoop c.receive.missing_message_id_list
          (match c.receive.last_message_id with
           | some i => i
           | none => 1)
          id now
      last_message_id := if id = 0 then none else some id } }

/-- `Connector::resolve_incoming_ping`. -/
def Connector.resolve_incoming_ping (c : Connector α) (id : Option ℕ)
    (now : ℚ) : Connector α :=
  let c1 := match id with
    | some last_send_message_id => c.request_message_up_to last_send_message_id now
    | none => c
  { c1 with receive := { c1.receive with last_ping := now } }

/-- `Connector::handle_incoming_data` on an (already decoded) packet.
Returns the new state, the packets written to the socket in emission
order, and the delivered application payload, mirroring
`Result<Option<TReceive>>` in the success case (the branches modelled
perform no fallible action besides the socket writes listed). -/
def Connector.handle_incoming_data (c : Connector α) (pk : Packet α)
    (now : ℚ) : Connector α × List (Packet α) × Option α :=
  match pk with
  | Packet.Ping last_send_message_id =>
      let c1 := c.resolve_incoming_ping last_send_message_id now
      (c1, [Packet.Pong c1.send.next_message_id], none)
  | Packet.RequestPacket id =>
      match c.send.unconfirmed_message_cache.find? (fun kv => kv.1 == id) with
      | some kv =>
          ({ c with send := { c.send with unconfirmed_message_cache :=
              c.send.unconfirmed_message_cache.map (fun kv2 =>
                if kv2.1 == id then (kv2.1, { kv2.2 with last_emit := now })
                else kv2) } },
           [kv.2.packet], none)
      | none => (c, [Packet.PacketNotFound id], none)
  | Packet.ConfirmPacket id =>
      ({ c with send := { c.send with unconfirmed_message_cache :=
          c.send.unconfirmed_message_cache.filter (fun kv => kv.1 != id) } },
       [], none)
  | Packet.PacketNotFound id =>
      ({ c with receive := { c.receive with missing_message_id_list :=
          c.receive.missing_message_id_list.filter (fun e => e.id != id) } },
       [], none)
  | Packet.Pong last_send_message_id =>
      (c.resolve_incoming_ping last_send_message_id now, [], none)
  | Packet.Data message_id data =>
      let c1 := match message_id with
        | some m => c.request_message_up_to (m - 1) now
        | none => c
      let emits := match message_id with
        | some m => [Packet.ConfirmPacket m]
        | none => ([] : List (Packet α))
      ({ c1 with receive := { c1.receive with last_message_id := message_id } },
       emits, some data)

/-- `Connector::send_ping`: refresh `send.last_ping` and emit a `Ping`
announcing `next_message_id - 1` (when present). -/
def Connector.send_ping (c : Connector α) (now : ℚ) :
    Connector α × List (Packet α) :=
  ({ c with send := { c.send with last_ping := now } },
   [Packet.Ping (c.send.next_message_id.map (fun id => id - 1))])

/-- `Connector::connect`: reset both halves, then `send_ping`. -/
def Connector.connect (_c : Connector α) (now : ℚ) :
    Connector α × List (Packet α) :=
  Connector.send_ping
    { send := ConnectorSend.new now, receive := ConnectorReceive.new now } now

/-- `Connector::send_unconfirmed`: emit the payload without an id; no
state change. -/
def Connector.send_unconfirmed (c : Connector α) (msg : α) :
    Connector α × List (Packet α) :=
  (c, [Packet.Data none msg])

/-- `Connector::send_confirmed`: allocate `next_message_id` (or 1), emit
the id-carrying `Data`, cache it, advance the allocator. -/
def Connector.send_confirmed (c : Connector α) (msg : α) (now : ℚ) :
    Connector α × List (Packet α) :=
  let sending_id := match c.send.next_message_id with
    | some id => id
    | none => 1
  let data := Packet.Data (some sending_id) msg
  ({ c with send :=
    { c.send with
      unconfirmed_message_cache :=
        c.send.unconfirmed_message_cache.filter (fun kv => kv.1 != sending_id)
          ++ [(sending_id, { packet := data, last_emit := now })]
      next_message_id :=
        if sending_id + 1 = 0 then none else some (sending_id + 1) } },
   [data])

/-- The `RequestPacket`s emitted by the missing-list sweep of
`Connector::update`, in list order. -/
def dueRequestEmits (p : Params) (missing : List MissingId) (now : ℚ) :
    List (Packet α) :=
  missing.filterMap (fun m =>
    if now - m.last_request > p.REQUEST_MISSING_PACKET_INTERVAL_S then
      some (Packet.RequestPacket m.id)
    else none)

/-- The missing list after the sweep (`last_request` refreshed on every
entry that was due). -/
def refreshRequests (p : Params) (missing : List MissingId) (now : ℚ) :
    List MissingId :=
  missing.map (fun m =>
    if now - m.last_request > p.REQUEST_MISSING_PACKET_INTERVAL_S then
      { m with last_request := now }
    else m)

/-- The cached packets re-emitted by the unconfirmed-cache sweep of
`Connector::update`, in traversal order. -/
def dueResendEmits (p : Params) (cache : List (ℕ × CachedPacket α))
    (now : ℚ) : List (Packet α) :=
  cache.filterMap (fun kv =>
    if now - kv.2.last_emit > p.EMIT_UNCONFIRMED_PACKET_INTERVAL_S then
      some kv.2.packet
    else none)

/-- The cache after the sweep (`last_emit` refreshed on every entry that
was due). -/
def refreshResends (p : Params) (cache : List (ℕ × CachedPacket α))
    (now : ℚ) : List (ℕ × CachedPacket α) :=
  cache.map (fun kv =>
    if now - kv.2.last_emit > p.EMIT_UNCONFIRMED_PACKET_INTERVAL_S then
      (kv.1, { kv.2 with last_emit := now })
    else kv)

/-- `Connector::update` (lib.rs lines 236–266): early-return when
`state()` is `Disconnected`; else ping when due, then sweep the missing
list, then sweep the unconfirmed cache. -/
def Connector.update (c : Connector α) (p : Params) (now : ℚ) :
    Connector α × List (Packet α) :=
  if c.state p now = NetworkState.Disconnected then
    (c, [])
  else
    let r1 :=
      if now - c.send.last_ping > p.PING_INTERVAL_S then c.send_ping now
      else (c, [])
    let c1 := r1.1
    let e2 : List (Packet α) :=
      dueRequestEmits p c1.receive.missing_message_id_list now
    let e3 : List (Packet α) :=
      dueResendEmits p c1.send.unconfirmed_message_cache now
    let receive2 := { c1.receive with
      missing_message_id_list :=
        refreshRequests p c1.receive.missing_message_id_list now }
    let send2 := { c1.send with
      unconfirmed_message_cache :=
        refreshResends p c1.send.unconfirmed_message_cache now }
    ({ c1 with receive := receive2, send := send2 }, r1.2 ++ e2 ++ e3)

/-- One public mutating operation of the connector (`receive_from` and
`update_and_receive` are sequences of `update` and `handleIncoming`). -/
inductive Op (α : Type) where
  | connect
  | update
  | sendConfirmed (msg : α)
  | sendUnconfirmed (msg : α)
  | handleIncoming (pk : Packet α)

/-- Run one operation, returning the new state and the emitted packets. -/
def applyOp (p : Params) (c : Connector α) (op : Op α) (now : ℚ) :
    Connector α × List (Packet α) :=
  match op with
  | Op.connect => c.connect now
  | Op.update => c.update p now
  | Op.sendConfirmed msg => c.send_confirmed msg now
  | Op.sendUnconfirmed msg => c.send_unconfirmed msg
  | Op.handleIncoming pk =>
      let r := c.handle_incoming_data pk now
      (r.1, r.2.1)

/-- Invariant: every id cached in the send half is strictly below the
(present) `next_message_id`. -/
def sendInv (c : Connector α) : Prop :=
  ∀ kv ∈ c.send.unconfirmed_message_cache,
    ∃ n, c.send.next_message_id = some n ∧ kv.1 < n

/-- When the loop starts past its bound it leaves the list untouched. -/
theorem requestLoop_eq_of_lt (missing : List MissingId) (start id : ℕ)
    (now : ℚ) (h : id < start) : requestLoop missing start id now = missing := by
  unfold requestLoop
  rw [dif_neg (by omega)]

/-- Membership in the ids of the gap-fill loop's output: an id is there
iff it was already there or lies in the closed interval
`[start, id]`. -/
theorem mem_requestLoop (k : ℕ) (n : ℕ) :
    ∀ (missing : List MissingId) (start id : ℕ) (now : ℚ),
      id + 1 - start ≤ n →
      (k ∈ (requestLoop missing start id now).map MissingId.id ↔
        k ∈ missing.map MissingId.id ∨ (start ≤ k ∧ k ≤ id)) := by
  induction n with
  | zero =>
      intro missing start id now hn
      rw [requestLoop_eq_of_lt missing start id now (by omega)]
      constructor
      · exact Or.inl
      · rintro (h | ⟨h1, h2⟩)
        · exact h
        · omega
  | succ n ih =>
      intro missing start id now hn
      by_cases hle : start ≤ id
      · rw [requestLoop, dif_pos hle]
        by_cases hfind : (missing.find? (fun e => e.id == start)).isSome
        · rw [if_pos hfind, ih missing (start + 1) id now (by omega)]
          have hstart : start ∈ missing.map MissingId.id := by
            rcases List.find?_isSome.mp hfind with ⟨e, he, hpe⟩
            exact List.mem_map.mpr ⟨e, he, by simpa using hpe⟩
          constructor
          · rintro (h | ⟨h1, h2⟩)
            · exact Or.inl h
            · exact Or.inr ⟨by omega, h2⟩
          · rintro (h | ⟨h1, h2⟩)
            · exact Or.inl h
            · by_cases hk : k = start
              · exact Or.inl (hk ▸ hstart)
              · exact Or.inr ⟨by omega, h2⟩
        · rw [if_neg hfind,
            ih (missing ++ [({ id := start, last_request := now } : MissingId)])
              (start + 1) id now (by omega)]
          simp only [List.map_append, List.mem_append, List.map_cons,
            List.map_nil, List.mem_singleton]
          constructor
          · rintro ((h | h) | ⟨h1, h2⟩)
            · exact Or.inl h
            · exact Or.inr ⟨by omega, by omega⟩
            · exact Or.inr ⟨by omega, h2⟩
          · rintro (h | ⟨h1, h2⟩)
            · exact Or.inl (Or.inl h)
            · by_cases hk : k = start
              · exact Or.inl (Or.inr hk)
              · exact Or.inr ⟨by omega, h2⟩
      · rw [requestLoop_eq_of_lt missing start id now (by omega)]
        constructor
        · exact Or.inl
        · rintro (h | ⟨h1, h2⟩)
          · exact h
          · omega

/-- A connector with the same send half satisfies the same send-half
invariant. -/
theorem sendInv_of_send_eq {c c' : Connector α} (hs : c'.send = c.send)
    (h : sendInv c) : sendInv c' := by
  unfold sendInv at h ⊢
  rw [hs]
  exact h

/-- The send-half invariant follows from the invariant of a state whose
allocator agrees and whose cache covers the keys. -/
theorem sendInv_of_keys {c' c : Connector α} (h : sendInv c)
    (hnext : c'.send.next_message_id = c.send.next_message_id)
    (hkeys : ∀ kv ∈ c'.send.unconfirmed_message_cache,
      ∃ kv2, kv2 ∈ c.send.unconfirmed_message_cache ∧ kv.1 = kv2.1) :
    sendInv c' := by
  intro kv hkv
  obtain ⟨kv2, hkv2, heq⟩ := hkeys kv hkv
  obtain ⟨m, hm, hlt⟩ := h kv2 hkv2
  exact ⟨m, by rw [hnext, hm], heq ▸ hlt⟩

/-- The resend sweep only refreshes timestamps: keys come from the old
cache. -/
theorem mem_refreshResends {p : Params} {cache : List (ℕ × CachedPacket α)}
    {now : ℚ} {kv : ℕ × CachedPacket α}
    (hkv : kv ∈ refreshResends p cache now) :
    ∃ kv2, kv2 ∈ cache ∧ kv.1 = kv2.1 := by
  rw [refreshResends, List.mem_map] at hkv
  obtain ⟨kv2, h2, heq⟩ := hkv
  refine ⟨kv2, h2, ?_⟩
  by_cases hc : now - kv2.2.last_emit > p.EMIT_UNCONFIRMED_PACKET_INTERVAL_S
  · rw [if_pos hc] at heq
    rw [← heq]
  · rw [if_neg hc] at heq
    rw [← heq]

/-- C1, code_bug: the claim says `state()` returns `Connected` when
`Rin ≤ RECEIVE_PING_TIMEOUT`, `Connecting` when `Rin` exceeds it while
`Rout ≤ SEND_PING_TIMEOUT`, and `Disconnected` when both thresholds are
exceeded.  The source (lib.rs 188–198) returns the two non-connected
labels swapped, contradicting its own doc comments and the
`NetworkState` variant docs: with all timeouts `3/2`, at `now = 2`, a
connector with `receive.last_ping = 0` and `send.last_ping = 1`
(`Rin = 2 > 3/2`, `Rout = 1 ≤ 3/2`, so the claim says `Connecting`)
is reported `Disconnected`, and one with both pings at `0` (both
thresholds exceeded, so the claim says `Disconnected`) is reported
`Connecting`. -/
theorem state_swaps_connecting_and_disconnected :
    (Connector.state
        (⟨{ unconfirmed_message_cache := [], next_message_id := none, last_ping := 1 },
          { last_message_id := none, missing_message_id_list := [], last_ping := 0 }⟩ :
          Connector Unit)
        ⟨1/2, 1, 1, 3/2, 3/2⟩ 2
      = NetworkState.Disconnected)
    ∧ (Connector.state
        (⟨{ unconfirmed_message_cache := [], next_message_id := none, last_ping := 0 },
          { last_message_id := none, missing_message_id_list := [], last_ping := 0 }⟩ :
          Connector Unit)
        ⟨1/2, 1, 1, 3/2, 3/2⟩ 2
      = NetworkState.Connecting) := by
  constructor <;> norm_num [Connector.state]

/-- C4, code_bug: the claim (spec §4.4.4) says the `Pong` reply to a
`Ping` carries `last_sent_id = next_message_id − 1` when
`next_message_id` is present, absent otherwise.  The source (lib.rs
292–298) instead sends `next_message_id` itself on the
`last_send_message_id` wire field — the id of a message that was never
sent — while its own `send_ping` (lib.rs 343–355) announces
`next_message_id − 1` on the very same field.  Below, a connector that
has sent exactly message 1 (`next_message_id = some 2`) replies to a
`Ping` with `Pong` announcing 2, yet its own `Ping` announces 1. -/
theorem pong_announces_unsent_next_id :
    ((Connector.handle_incoming_data
        (⟨{ unconfirmed_message_cache := [(1, { packet := Packet.Data (some 1) (), last_emit := 0 })],
            next_message_id := some 2, last_ping := 0 },
          { last_message_id := none, missing_message_id_list := [], last_ping := 0 }⟩ :
          Connector Unit)
        (Packet.Ping none) 0).2.1 = [Packet.Pong (some 2)])
    ∧ ((Connector.send_ping
        (⟨{ unconfirmed_message_cache := [(1, { packet := Packet.Data (some 1) (), last_emit := 0 })],
            next_message_id := some 2, last_ping := 0 },
          { last_message_id := none, missing_message_id_list := [], last_ping := 0 }⟩ :
          Connector Unit)
        0).2 = [Packet.Ping (some 1)]) :=
  ⟨rfl, rfl⟩

/-- C5, code_bug: the claim (spec §4.4.4, adopted as the correct
behaviour, with §9 noting the source deviation) says `last_ping_recv`
is refreshed on every inbound packet, including `Data`,
`ConfirmPacket`, `RequestPacket` and `PacketNotFound`.  The source only
refreshes it inside `resolve_incoming_ping`, i.e. on `Ping`/`Pong`:
below, each of the four other packet kinds arrives at `now = 5` at a
connector whose `receive.last_ping` is `0`, and it stays `0` (while a
`Ping` does refresh it to `5`). -/
theorem inbound_data_and_acks_do_not_refresh_last_ping :
    ((Connector.handle_incoming_data
        (⟨{ unconfirmed_message_cache := [], next_message_id := none, last_ping := 0 },
          { last_message_id := none, missing_message_id_list := [], last_ping := 0 }⟩ :
          Connector Unit)
        (Packet.Data (some 1) ()) 5).1.receive.last_ping = 0)
    ∧ ((Connector.handle_incoming_data
        (⟨{ unconfirmed_message_cache := [], next_message_id := none, last_ping := 0 },
          { last_message_id := none, missing_message_id_list := [], last_ping := 0 }⟩ :
          Connector Unit)
        (Packet.ConfirmPacket 1) 5).1.receive.last_ping = 0)
    ∧ ((Connector.handle_incoming_data
        (⟨{ unconfirmed_message_cache := [], next_message_id := none, last_ping := 0 },
          { last_message_id := none, missing_message_id_list := [], last_ping := 0 }⟩ :
          Connector Unit)
        (Packet.RequestPacket 1) 5).1.receive.last_ping = 0)
    ∧ ((Connector.handle_incoming_data
        (⟨{ unconfirmed_message_cache := [], next_message_id := none, last_ping := 0 },
          { last_message_id := none, missing_message_id_list := [], last_ping := 0 }⟩ :
          Connector Unit)
        (Packet.PacketNotFound 1) 5).1.receive.last_ping = 0)
    ∧ ((Connector.handle_incoming_data
        (⟨{ unconfirmed_message_cache := [], next_message_id := none, last_ping := 0 },
          { last_message_id := none, missing_message_id_list := [], last_ping := 0 }⟩ :
          Connector Unit)
        (Packet.Ping none) 5).1.receive.last_ping = 5) :=
  ⟨rfl, rfl, rfl, rfl, rfl⟩

/-- C9, confirmed: `handle_incoming_data` on `ConfirmPacket{id}` is
exactly the removal of `id` from the unconfirmed cache, and on
`PacketNotFound{id}` exactly the removal of `id` from the missing list;
both emit nothing, deliver nothing, and perform no fallible action, so
the call returns success; when the id is absent the connector is left
completely unchanged. -/
theorem confirm_and_notfound_silently_absorbed {α : Type} (c : Connector α)
    (id : ℕ) (now : ℚ) :
    (c.handle_incoming_data (Packet.ConfirmPacket id) now =
      ({ c with send := { c.send with unconfirmed_message_cache :=
          c.send.unconfirmed_message_cache.filter (fun kv => kv.1 != id) } },
       [], none))
    ∧ (c.handle_incoming_data (Packet.PacketNotFound id) now =
      ({ c with receive := { c.receive with missing_message_id_list :=
          c.receive.missing_message_id_list.filter (fun e => e.id != id) } },
       [], none))
    ∧ (id ∉ c.send.unconfirmed_message_cache.map Prod.fst →
        (c.handle_incoming_data (Packet.ConfirmPacket id) now).1 = c)
    ∧ (id ∉ c.receive.missing_message_id_list.map MissingId.id →
        (c.handle_incoming_data (Packet.PacketNotFound id) now).1 = c) := by
  refine ⟨rfl, rfl, ?_, ?_⟩
  · intro hid
    show ({ c with send := { c.send with unconfirmed_message_cache :=
        c.send.unconfirmed_message_cache.filter (fun kv => kv.1 != id) } } : Connector α) = c
    have hf : c.send.unconfirmed_message_cache.filter (fun kv => kv.1 != id)
        = c.send.unconfirmed_message_cache := by
      rw [List.filter_eq_self]
      intro kv hkv
      rw [bne_iff_ne, ne_eq]
      intro heq
      exact hid (List.mem_map.mpr ⟨kv, hkv, heq⟩)
    rw [hf]
  · intro hid
    show ({ c with receive := { c.receive with missing_message_id_list :=
        c.receive.missing_message_id_list.filter (fun e => e.id != id) } } : Connector α) = c
    have hf : c.receive.missing_message_id_list.filter (fun e => e.id != id)
        = c.receive.missing_message_id_list := by
      rw [List.filter_eq_self]
      intro e he
      rw [bne_iff_ne, ne_eq]
      intro heq
      exact hid (List.mem_map.mpr ⟨e, he, heq⟩)
    rw [hf]

/-- C9 witness: at a concrete connector whose cache holds id 3 and whose
missing list holds id 4, an ack for the unknown id 7 and a not-found
for the not-missing id 9 leave the connector unchanged. -/
theorem confirm_and_notfound_silently_absorbed_witness :
    ((Connector.handle_incoming_data
        (⟨{ unconfirmed_message_cache := [(3, { packet := Packet.Data (some 3) (), last_emit := 0 })],
            next_message_id := some 4, last_ping := 0 },
          { last_message_id := none, missing_message_id_list := [⟨4, 0⟩], last_ping := 0 }⟩ :
          Connector Unit)
        (Packet.ConfirmPacket 7) 1).1
      = (⟨{ unconfirmed_message_cache := [(3, { packet := Packet.Data (some 3) (), last_emit := 0 })],
            next_message_id := some 4, last_ping := 0 },
          { last_message_id := none, missing_message_id_list := [⟨4, 0⟩], last_ping := 0 }⟩ :
          Connector Unit))
    ∧ ((Connector.handle_incoming_data
        (⟨{ unconfirmed_message_cache := [(3, { packet := Packet.Data (some 3) (), last_emit := 0 })],
            next_message_id := some 4, last_ping := 0 },
          { last_message_id := none, missing_message_id_list := [⟨4, 0⟩], last_ping := 0 }⟩ :
          Connector Unit)
        (Packet.PacketNotFound 9) 1).1
      = (⟨{ unconfirmed_message_cache := [(3, { packet := Packet.Data (some 3) (), last_emit := 0 })],
            next_message_id := some 4, last_ping := 0 },
          { last_message_id := none, missing_message_id_list := [⟨4, 0⟩], last_ping := 0 }⟩ :
          Connector Unit)) :=
  ⟨(confirm_and_notfound_silently_absorbed _ 7 1).2.2.1 (by simp),
   (confirm_and_notfound_silently_absorbed _ 9 1).2.2.2 (by simp)⟩

/-- C10, confirmed: receiving a `Data` packet whose `message_id` is
absent (an unconfirmed message) unconditionally stores that absent id,
i.e. sets the receive half's `last_message_id` to `none`, erasing the
previously recorded high-water mark; the payload is still yielded,
nothing is emitted, and the missing list is untouched. -/
theorem data_without_id_erases_last_message_id {α : Type} (c : Connector α)
    (x : α) (now : ℚ) :
    ((c.handle_incoming_data (Packet.Data none x) now).1.receive.last_message_id = none)
    ∧ ((c.handle_incoming_data (Packet.Data none x) now).2.2 = some x)
    ∧ ((c.handle_incoming_data (Packet.Data none x) now).2.1 = [])
    ∧ ((c.handle_incoming_data (Packet.Data none x) now).1.receive.missing_message_id_list
        = c.receive.missing_message_id_list) :=
  ⟨rfl, rfl, rfl, rfl⟩

/-- Receiving `Data{some m}` rewrites the missing list by the gap-fill
loop run from `last_message_id` (or 1) up to `m − 1`. -/
theorem handle_data_some_missing {α : Type} (c : Connector α) (m : ℕ)
    (x : α) (now : ℚ) :
    (c.handle_incoming_data (Packet.Data (some m) x) now).1.receive.missing_message_id_list
      = requestLoop c.receive.missing_message_id_list
          (c.receive.last_message_id.getD 1) (m - 1) now := by
  show requestLoop c.receive.missing_message_id_list
      (match c.receive.last_message_id with
       | some i => i
       | none => 1) (m - 1) now
    = requestLoop c.receive.missing_message_id_list
        (c.receive.last_message_id.getD 1) (m - 1) now
  cases c.receive.last_message_id <;> rfl

/-- C2 counterexample: `Data{message_id = 2}` arrives while 2 is already
in the missing list (and `last_message_id` is absent); afterwards the
missing list still holds the entry for 2 — the source never removes a
missing entry on a `Data` packet — refuting the claimed removal (the
gap id 1 is entered as claimed). -/
theorem data_for_missing_id_not_removed_cex :
    ((Connector.handle_incoming_data
        (⟨{ unconfirmed_message_cache := [], next_message_id := none, last_ping := 0 },
          { last_message_id := none, missing_message_id_list := [⟨2, 0⟩], last_ping := 0 }⟩ :
          Connector Unit)
        (Packet.Data (some 2) ()) 7).1.receive.missing_message_id_list.map MissingId.id
      = [2, 1])
    ∧ (2 ∈ (Connector.handle_incoming_data
        (⟨{ unconfirmed_message_cache := [], next_message_id := none, last_ping := 0 },
          { last_message_id := none, missing_message_id_list := [⟨2, 0⟩], last_ping := 0 }⟩ :
          Connector Unit)
        (Packet.Data (some 2) ()) 7).1.receive.missing_message_id_list.map MissingId.id) := by
  constructor <;>
    simp [Connector.handle_incoming_data, Connector.request_message_up_to, requestLoop]

/-- C2, corrected: when an incoming `Data` packet carries a present
`message_id = m` that is already in the missing list, the source does
NOT remove the entry for `m` — `handle_incoming_data` never removes
missing entries on `Data` (only `PacketNotFound` removes them) — while
ids below `m` in the gap-fill range are still entered as gaps. -/
theorem data_keeps_own_missing_entry {α : Type} (c : Connector α) (m : ℕ)
    (x : α) (now : ℚ)
    (hm : m ∈ c.receive.missing_message_id_list.map MissingId.id) :
    m ∈ (c.handle_incoming_data (Packet.Data (some m) x) now).1.receive.missing_message_id_list.map MissingId.id
    ∧ ∀ k, c.receive.last_message_id.getD 1 ≤ k → k < m →
        k ∈ (c.handle_incoming_data (Packet.Data (some m) x) now).1.receive.missing_message_id_list.map MissingId.id := by
  rw [handle_data_some_missing]
  constructor
  · exact (mem_requestLoop m ((m - 1) + 1 - c.receive.last_message_id.getD 1)
      c.receive.missing_message_id_list (c.receive.last_message_id.getD 1)
      (m - 1) now (le_refl _)).mpr (Or.inl hm)
  · intro k hk1 hk2
    exact (mem_requestLoop k ((m - 1) + 1 - c.receive.last_message_id.getD 1)
      c.receive.missing_message_id_list (c.receive.last_message_id.getD 1)
      (m - 1) now (le_refl _)).mpr (Or.inr ⟨hk1, by omega⟩)

/-- C2 witness: the corrected statement applied at the concrete input of
the counterexample — id 2 is still missing after `Data{2}` is handled. -/
theorem data_keeps_own_missing_entry_witness :
    2 ∈ (Connector.handle_incoming_data
        (⟨{ unconfirmed_message_cache := [], next_message_id := none, last_ping := 0 },
          { last_message_id := none, missing_message_id_list := [⟨2, 0⟩], last_ping := 0 }⟩ :
          Connector Unit)
        (Packet.Data (some 2) ()) 7).1.receive.missing_message_id_list.map MissingId.id :=
  (data_keeps_own_missing_entry _ 2 () 7 (by simp)).1

/-- C3 counterexample: with `last_message_id = some 1` and empty missing
list, handling `Data{message_id = 3}` yields missing ids `[1, 2]` — in
particular the old last id 1 IS added, refuting the claim that exactly
the ids strictly between 1 and 3 (only 2) are entered. -/
theorem gap_fill_adds_last_id_cex :
    ((Connector.handle_incoming_data
        (⟨{ unconfirmed_message_cache := [], next_message_id := none, last_ping := 0 },
          { last_message_id := some 1, missing_message_id_list := [], last_ping := 0 }⟩ :
          Connector Unit)
        (Packet.Data (some 3) ()) 7).1.receive.missing_message_id_list.map MissingId.id
      = [1, 2])
    ∧ (1 ∈ (Connector.handle_incoming_data
        (⟨{ unconfirmed_message_cache := [], next_message_id := none, last_ping := 0 },
          { last_message_id := some 1, missing_message_id_list := [], last_ping := 0 }⟩ :
          Connector Unit)
        (Packet.Data (some 3) ()) 7).1.receive.missing_message_id_list.map MissingId.id) := by
  constructor <;>
    simp [Connector.handle_incoming_data, Connector.request_message_up_to, requestLoop]

/-- C3, corrected: with `last_message_id = some L` and an incoming
`Data` whose present `message_id` is `m > L`, the gap-fill enters into
the missing list exactly the ids `k` with `L ≤ k < m` — inclusive of
`L` itself, because the source's loop starts at `last_message_id`
rather than one past it — and `last_message_id` is set to `m`. -/
theorem gap_fill_is_inclusive_of_last_id {α : Type} (c : Connector α)
    (L m : ℕ) (x : α) (now : ℚ)
    (hL : c.receive.last_message_id = some L) (hm : L < m) :
    ((c.handle_incoming_data (Packet.Data (some m) x) now).1.receive.last_message_id = some m)
    ∧ ∀ k, k ∈ (c.handle_incoming_data (Packet.Data (some m) x) now).1.receive.missing_message_id_list.map MissingId.id
        ↔ (k ∈ c.receive.missing_message_id_list.map MissingId.id ∨ (L ≤ k ∧ k < m)) := by
  constructor
  · rfl
  · intro k
    rw [handle_data_some_missing, hL, Option.getD_some,
      mem_requestLoop k ((m - 1) + 1 - L) c.receive.missing_message_id_list L
        (m - 1) now (le_refl _)]
    exact or_congr_right (by constructor <;> (rintro ⟨h1, h2⟩; exact ⟨h1, by omega⟩))

/-- C3 witness: the corrected statement applied at the counterexample
input — `last_message_id` becomes `some 3` and id 1 (the old last id)
is in the new missing list. -/
theorem gap_fill_is_inclusive_of_last_id_witness :
    ((Connector.handle_incoming_data
        (⟨{ unconfirmed_message_cache := [], next_message_id := none, last_ping := 0 },
          { last_message_id := some 1, missing_message_id_list := [], last_ping := 0 }⟩ :
          Connector Unit)
        (Packet.Data (some 3) ()) 7).1.receive.last_message_id = some 3)
    ∧ (1 ∈ (Connector.handle_incoming_data
        (⟨{ unconfirmed_message_cache := [], next_message_id := none, last_ping := 0 },
          { last_message_id := some 1, missing_message_id_list := [], last_ping := 0 }⟩ :
          Connector Unit)
        (Packet.Data (some 3) ()) 7).1.receive.missing_message_id_list.map MissingId.id
      ↔ (1 ∈ (([] : List MissingId)).map MissingId.id ∨ (1 ≤ 1 ∧ 1 < 3))) :=
  ⟨(gap_fill_is_inclusive_of_last_id _ 1 3 () 7 rfl (by decide)).1,
   (gap_fill_is_inclusive_of_last_id _ 1 3 () 7 rfl (by decide)).2 1⟩

/-- C7 counterexample: with `last_message_id = some 5`, re-receiving
`Data{message_id = 2}` leaves `last_message_id` at `some 2`, not
unchanged at `some 5` — the source unconditionally stores the incoming
id, regressing the high-water mark. -/
theorem redelivery_regresses_last_message_id_cex :
    ((Connector.handle_incoming_data
        (⟨{ unconfirmed_message_cache := [], next_message_id := none, last_ping := 0 },
          { last_message_id := some 5, missing_message_id_list := [], last_ping := 0 }⟩ :
          Connector Unit)
        (Packet.Data (some 2) ()) 7).1.receive.last_message_id = some 2)
    ∧ some 2 ≠ some 5 :=
  ⟨rfl, by decide⟩

/-- C7, corrected: re-receiving a `Data` packet with present
`message_id = k ≤ L` (where `last_message_id = some L`, `k ≥ 1`) leaves
the missing list unchanged (the gap-fill loop never runs) and still
emits `ConfirmPacket{k}`, but `last_message_id` is NOT left unchanged:
it is set to `some k` (so it only stays the same in the special case
`k = L`). -/
theorem redelivery_noop_gap_fill_but_stores_id {α : Type} (c : Connector α)
    (L k : ℕ) (x : α) (now : ℚ)
    (hL : c.receive.last_message_id = some L) (hk : k ≤ L) (hk1 : 1 ≤ k) :
    ((c.handle_incoming_data (Packet.Data (some k) x) now).1.receive.missing_message_id_list
      = c.receive.missing_message_id_list)
    ∧ ((c.handle_incoming_data (Packet.Data (some k) x) now).2.1 = [Packet.ConfirmPacket k])
    ∧ ((c.handle_incoming_data (Packet.Data (some k) x) now).1.receive.last_message_id = some k) := by
  refine ⟨?_, rfl, rfl⟩
  rw [handle_data_some_missing, hL, Option.getD_some]
  exact requestLoop_eq_of_lt _ _ _ _ (by omega)

/-- C7 witness: the corrected statement at `L = 5`, `k = 2` with a
non-empty missing list — the missing list survives untouched, the
confirmation is emitted, and `last_message_id` drops to `some 2`. -/
theorem redelivery_noop_gap_fill_but_stores_id_witness :
    ((Connector.handle_incoming_data
        (⟨{ unconfirmed_message_cache := [], next_message_id := none, last_ping := 0 },
          { last_message_id := some 5, missing_message_id_list := [⟨9, 0⟩], last_ping := 0 }⟩ :
          Connector Unit)
        (Packet.Data (some 2) ()) 7).1.receive.missing_message_id_list
      = [⟨9, 0⟩])
    ∧ ((Connector.handle_incoming_data
        (⟨{ unconfirmed_message_cache := [], next_message_id := none, last_ping := 0 },
          { last_message_id := some 5, missing_message_id_list := [⟨9, 0⟩], last_ping := 0 }⟩ :
          Connector Unit)
        (Packet.Data (some 2) ()) 7).2.1 = [Packet.ConfirmPacket 2])
    ∧ ((Connector.handle_incoming_data
        (⟨{ unconfirmed_message_cache := [], next_message_id := none, last_ping := 0 },
          { last_message_id := some 5, missing_message_id_list := [⟨9, 0⟩], last_ping := 0 }⟩ :
          Connector Unit)
        (Packet.Data (some 2) ()) 7).1.receive.last_message_id = some 2) :=
  redelivery_noop_gap_fill_but_stores_id _ 5 2 () 7 rfl (by decide) (by decide)

/-- C6, confirmed: every connector operation (`connect`, `update`,
`send_confirmed`, `send_unconfirmed`, `handle_incoming_data` on any
packet — `receive_from` and `update_and_receive` are sequences of
these) preserves the invariant that whenever the unconfirmed cache is
non-empty, `next_message_id` is present and every cached id is strictly
below it; the cache of a fresh connector is empty, so the invariant
holds on every trace. -/
theorem cache_ids_below_next_preserved {α : Type} (p : Params)
    (c : Connector α) (op : Op α) (now : ℚ) (h : sendInv c) :
    sendInv (applyOp p c op now).1 := by
  cases op with
  | connect =>
      intro kv hkv
      simp [applyOp, Connector.connect, Connector.send_ping, ConnectorSend.new] at hkv
  | update =>
      by_cases hd : c.state p now = NetworkState.Disconnected
      · simpa [applyOp, Connector.update, hd] using h
      · refine sendInv_of_keys h ?_ ?_
        · by_cases hp : now - c.send.last_ping > p.PING_INTERVAL_S <;>
            simp [applyOp, Connector.update, hd, hp, Connector.send_ping]
        · intro kv hkv
          have hkv2 : kv ∈ refreshResends p c.send.unconfirmed_message_cache now := by
            by_cases hp : now - c.send.last_ping > p.PING_INTERVAL_S <;>
              simpa [applyOp, Connector.update, hd, hp, Connector.send_ping] using hkv
          exact mem_refreshResends hkv2
  | sendConfirmed msg =>
      cases hnm : c.send.next_message_id with
      | none =>
          intro kv hkv
          simp only [applyOp, Connector.send_confirmed, hnm, List.mem_append] at hkv
          rcases hkv with hkv | hkv
          · obtain ⟨n, hn, _⟩ := h kv (List.mem_filter.mp hkv).1
            rw [hnm] at hn
            cases hn
          · refine ⟨2, ?_, ?_⟩
            · simp [applyOp, Connector.send_confirmed, hnm]
            · rw [List.mem_singleton] at hkv
              subst hkv
              exact Nat.one_lt_two
      | some sid =>
          intro kv hkv
          simp only [applyOp, Connector.send_confirmed, hnm, List.mem_append] at hkv
          refine ⟨sid + 1, ?_, ?_⟩
          · simp [applyOp, Connector.send_confirmed, hnm]
          · rcases hkv with hkv | hkv
            · obtain ⟨n, hn, hlt⟩ := h kv (List.mem_filter.mp hkv).1
              rw [hnm] at hn
              injection hn with hn
              omega
            · rw [List.mem_singleton] at hkv
              subst hkv
              simp
  | sendUnconfirmed msg => exact h
  | handleIncoming pk =>
      cases pk with
      | Ping a =>
          refine sendInv_of_send_eq ?_ h
          show (Connector.resolve_incoming_ping c a now).send = c.send
          cases a <;> rfl
      | Pong a =>
          refine sendInv_of_send_eq ?_ h
          show (Connector.resolve_incoming_ping c a now).send = c.send
          cases a <;> rfl
      | RequestPacket id =>
          cases hf : c.send.unconfirmed_message_cache.find? (fun kv => kv.1 == id) with
          | none =>
              have heq : (applyOp p c (Op.handleIncoming (Packet.RequestPacket id)) now).1 = c := by
                simp [applyOp, Connector.handle_incoming_data, hf]
              rw [heq]
              exact h
          | some kv0 =>
              refine sendInv_of_keys h ?_ ?_
              · simp [applyOp, Connector.handle_incoming_data, hf]
              · intro kv hkv
                simp only [applyOp, Connector.handle_incoming_data, hf, List.mem_map] at hkv
                obtain ⟨kv2, h2, heq⟩ := hkv
                refine ⟨kv2, h2, ?_⟩
                by_cases hc : (kv2.1 == id) = true
                · rw [← heq, if_pos hc]
                · rw [← heq, if_neg hc]
      | ConfirmPacket id =>
          refine sendInv_of_keys h rfl ?_
          intro kv hkv
          have hkv2 : kv ∈ c.send.unconfirmed_message_cache.filter
              (fun kv => kv.1 != id) := hkv
          exact ⟨kv, (List.mem_filter.mp hkv2).1, rfl⟩
      | PacketNotFound id => exact sendInv_of_send_eq rfl h
      | Data mid data =>
          refine sendInv_of_send_eq ?_ h
          cases mid <;> rfl

/-- C6 witness: starting from a fresh connector (empty cache, absent
allocator) and sending one confirmed message, the invariant holds on
the resulting state. -/
theorem cache_ids_below_next_preserved_witness :
    sendInv ((applyOp ⟨1/2, 1, 1, 3/2, 3/2⟩
      (⟨{ unconfirmed_message_cache := [], next_message_id := none, last_ping := 0 },
        { last_message_id := none, missing_message_id_list := [], last_ping := 0 }⟩ :
        Connector Unit)
      (Op.sendConfirmed ()) 0).1) :=
  cache_ids_below_next_preserved ⟨1/2, 1, 1, 3/2, 3/2⟩ _ (Op.sendConfirmed ()) 0
    (by intro kv hkv; simp at hkv)

/-- C8, confirmed: within a single `update()` call the emitted packet
sequence decomposes as the ping phase (the due `Ping`, if any),
followed by the missing-list phase (one `RequestPacket` per due missing
entry), followed by the unconfirmed-cache phase (one resend per due
cached packet), in exactly that order. -/
theorem update_emits_ping_then_requests_then_resends {α : Type}
    (p : Params) (c : Connector α) (now : ℚ) :
    ∃ e1 e2 e3 : List (Packet α),
      (c.update p now).2 = e1 ++ e2 ++ e3
      ∧ (∀ q ∈ e1, ∃ a, q = Packet.Ping a)
      ∧ (∀ q ∈ e2, ∃ m, m ∈ c.receive.missing_message_id_list
          ∧ now - m.last_request > p.REQUEST_MISSING_PACKET_INTERVAL_S
          ∧ q = Packet.RequestPacket m.id)
      ∧ (∀ q ∈ e3, ∃ kv, kv ∈ c.send.unconfirmed_message_cache
          ∧ now - kv.2.last_emit > p.EMIT_UNCONFIRMED_PACKET_INTERVAL_S
          ∧ q = kv.2.packet) := by
  by_cases hd : c.state p now = NetworkState.Disconnected
  · refine ⟨[], [], [], ?_, ?_, ?_, ?_⟩ <;> simp [Connector.update, hd]
  · refine ⟨(if now - c.send.last_ping > p.PING_INTERVAL_S then c.send_ping now
        else (c, [])).2,
      dueRequestEmits p c.receive.missing_message_id_list now,
      dueResendEmits p c.send.unconfirmed_message_cache now, ?_, ?_, ?_, ?_⟩
    · by_cases hp : now - c.send.last_ping > p.PING_INTERVAL_S <;>
        simp [Connector.update, hd, hp, Connector.send_ping]
    · intro q hq
      by_cases hp : now - c.send.last_ping > p.PING_INTERVAL_S
      · rw [if_pos hp] at hq
        simp only [Connector.send_ping, List.mem_singleton] at hq
        exact ⟨_, hq⟩
      · rw [if_neg hp] at hq
        simp at hq
    · intro q hq
      rw [dueRequestEmits, List.mem_filterMap] at hq
      obtain ⟨m, hm, hq⟩ := hq
      by_cases hdue : now - m.last_request > p.REQUEST_MISSING_PACKET_INTERVAL_S
      · rw [if_pos hdue] at hq
        injection hq with hq
        exact ⟨m, hm, hdue, hq.symm⟩
      · rw [if_neg hdue] at hq
        cases hq
    · intro q hq
      rw [dueResendEmits, List.mem_filterMap] at hq
      obtain ⟨kv, hkv, hq⟩ := hq
      by_cases hdue : now - kv.2.last_emit > p.EMIT_UNCONFIRMED_PACKET_INTERVAL_S
      · rw [if_pos hdue] at hq
        injection hq with hq
        exact ⟨kv, hkv, hdue, hq.symm⟩
      · rw [if_neg hdue] at hq
        cases hq

end UdpConnector
